import Mathlib

/-!
Shallow embedding of the dns-synchub synchronization engine
(`src/cloudflare_companion.py`, `src/pollers/traefik.py`).

The DNS provider client is modelled by two oracles: a stream of GET
responses (indexed by a cursor counting GET attempts) and a stream of
write results (indexed by a cursor counting POST/PUT HTTP attempts,
`none` meaning success and `some msg` a raised `CloudFlareAPIError`
with message `msg`).  Every provider interaction and every log line
relevant to the verified properties is recorded in explicit traces.
-/

namespace DnsSynchub

/-- `needle` is a prefix of `hay` (on character lists). -/
def listStartsWith : List Char → List Char → Bool
  | [], _ => true
  | _ :: _, [] => false
  | a :: as, b :: bs => a == b && listStartsWith as bs

/-- `needle` occurs inside `hay` (on character lists). -/
def listHasSub (needle : List Char) : List Char → Bool
  | [] => needle.isEmpty
  | c :: rest => listStartsWith needle (c :: rest) || listHasSub needle rest

/-- Python `needle in hay` for strings: substring containment. -/
def strContains (hay needle : String) : Bool :=
  listHasSub needle.toList hay.toList

/-- `DomainsModel` after settings validation (`update_domains` has filled
`ttl` and `target_domain`, so they are total here). -/
structure DomainsModel where
  name : String
  zone_id : String
  proxied : Bool
  ttl : Int
  target_domain : String
  comment : Option String
  excluded_sub_domains : List String
deriving DecidableEq, Repr

/-- The record payload built in `update_zones`:
`{type, name, content, ttl, proxied, comment}`. -/
structure RecordData where
  type : String
  name : String
  content : String
  ttl : Int
  proxied : Bool
  comment : Option String
deriving DecidableEq, Repr

/-- One response of the provider to a
`client.zones.dns_records.get(zone_id, params={"name": name})` call:
either a list of records (modelled by their `id` fields) or a raised
`CloudFlareAPIError` with message `msg`. -/
inductive GetResponse
  | success (records : List String)
  | apiError (msg : String)
deriving DecidableEq, Repr

/-- How a call to `get_records` ends: a returned value (Python's return
type admits `None`, hence the `Option`), a re-raised `CloudFlareAPIError`,
or `CloudFlareException("Max retries exceeded")`. -/
inductive GetOutcome
  | ok (records : Option (List String))
  | raiseAPI (msg : String)
  | raiseMaxRetries
deriving DecidableEq, Repr

/-- An HTTP call issued to the DNS provider client. -/
inductive ProviderCall
  | get (zone_id name : String)
  | post (zone_id : String) (data : RecordData)
  | put (zone_id record_id : String) (data : RecordData)
deriving DecidableEq, Repr

/-- Log lines of `post_record`, `put_record` and `update_zones` that the
verified properties refer to. -/
inductive LogEvent
  | dryRunPost (zone_id : String) (data : RecordData)
  | dryRunPut (zone_id record_id : String) (data : RecordData)
  | created (zone_id : String) (data : RecordData)
  | updated (zone_id record_id : String) (data : RecordData)
  | error (name msg : String)
deriving DecidableEq, Repr

/-- Result of a `get_records` call: its outcome, the GET cursor after the
call, the GET calls issued, and the arguments passed to `asyncio.sleep`
(the source builds the coroutine without awaiting it; the requested
durations are recorded here). -/
structure GetResult where
  outcome : GetOutcome
  cursor : Nat
  calls : List ProviderCall
  sleeps : List Nat
deriving DecidableEq, Repr

/-- The loop body of `CloudFlareZones.get_records`:
`for retry in range(max_retries)` with one GET attempt per iteration;
a `CloudFlareAPIError` whose message does not contain `"Rate limited"`
is re-raised, otherwise `sleep_time = 2 ** (retry + 1)` is passed to
`asyncio.sleep` and the loop continues; an exhausted loop raises
`CloudFlareException`. -/
def getRecordsAux (oracle : Nat → GetResponse) (zone_id name : String) :
    Nat → Nat → Nat → GetResult
  | _, 0, g => ⟨GetOutcome.raiseMaxRetries, g, [], []⟩
  | retry, fuel + 1, g =>
    match oracle g with
    | GetResponse.success recs =>
      ⟨GetOutcome.ok (some recs), g + 1, [ProviderCall.get zone_id name], []⟩
    | GetResponse.apiError msg =>
      if strContains msg "Rate limited" then
        let sleep_time := 2 ^ (retry + 1)
        let r := getRecordsAux oracle zone_id name (retry + 1) fuel (g + 1)
        ⟨r.outcome, r.cursor, ProviderCall.get zone_id name :: r.calls, sleep_time :: r.sleeps⟩
      else
        ⟨GetOutcome.raiseAPI msg, g + 1, [ProviderCall.get zone_id name], []⟩

/-- `CloudFlareZones.get_records(zone_id, name)` starting at GET cursor `g`. -/
def get_records (oracle : Nat → GetResponse) (max_retries : Nat)
    (zone_id name : String) (g : Nat) : GetResult :=
  getRecordsAux oracle zone_id name 0 max_retries g

/-- The settings and provider oracles a `CloudFlareZones` instance sees. -/
structure Env where
  getResp : Nat → GetResponse
  writeResp : Nat → Option String
  max_retries : Nat
  dry_run : Bool
  rc_type : String
  refresh_entries : Bool

/-- Result of a write helper: the raised `CloudFlareAPIError` message if
any, the write cursor after the call, the provider calls issued and the
log lines produced. -/
structure WriteResult where
  err : Option String
  w : Nat
  calls : List ProviderCall
  logs : List LogEvent
deriving DecidableEq, Repr

/-- `CloudFlareZones.post_record`: under `dry_run` only a log line is
produced; otherwise the POST reaches the provider client and may raise. -/
def post_record (env : Env) (w : Nat) (zone_id : String) (data : RecordData) : WriteResult :=
  if env.dry_run then
    ⟨none, w, [], [LogEvent.dryRunPost zone_id data]⟩
  else
    match env.writeResp w with
    | some msg => ⟨some msg, w + 1, [ProviderCall.post zone_id data], []⟩
    | none => ⟨none, w + 1, [ProviderCall.post zone_id data], [LogEvent.created zone_id data]⟩

/-- `CloudFlareZones.put_record`: under `dry_run` only a log line is
produced; otherwise the PUT reaches the provider client and may raise. -/
def put_record (env : Env) (w : Nat) (zone_id record_id : String) (data : RecordData) : WriteResult :=
  if env.dry_run then
    ⟨none, w, [], [LogEvent.dryRunPut zone_id record_id data]⟩
  else
    match env.writeResp w with
    | some msg => ⟨some msg, w + 1, [ProviderCall.put zone_id record_id data], []⟩
    | none =>
      ⟨none, w + 1, [ProviderCall.put zone_id record_id data],
        [LogEvent.updated zone_id record_id data]⟩

/-- The `for record in records: self.put_record(...)` loop of
`update_zones`; a raised error aborts the remaining iterations. -/
def putRecords (env : Env) (zone_id : String) (data : RecordData) :
    List String → Nat → WriteResult
  | [], w => ⟨none, w, [], []⟩
  | rid :: rest, w =>
    let r := put_record env w zone_id rid data
    match r.err with
    | some msg => ⟨some msg, r.w, r.calls, r.logs⟩
    | none =>
      let r2 := putRecords env zone_id data rest r.w
      ⟨r2.err, r2.w, r.calls ++ r2.calls, r.logs ++ r2.logs⟩

/-- `is_domain_excluded(logger, name, dom)`: true when some configured
subdomain `sub` makes `f"{sub}.{dom.name}"` a substring of `name`. -/
def is_domain_excluded (name : String) (dom : DomainsModel) : Bool :=
  dom.excluded_sub_domains.any fun sub => strContains name (sub ++ "." ++ dom.name)

/-- How a call to `update_zones` ends: a returned boolean, or an
exception propagated from `get_records`. -/
inductive ZonesOutcome
  | ret (ok : Bool)
  | raiseAPI (msg : String)
  | raiseMaxRetries
deriving DecidableEq, Repr

/-- Result of `update_zones`: its outcome, both cursors afterwards, and
the traces of provider calls, log lines and requested sleeps. -/
structure ZonesResult where
  outcome : ZonesOutcome
  g : Nat
  w : Nat
  calls : List ProviderCall
  logs : List LogEvent
  sleeps : List Nat
deriving DecidableEq, Repr

/-- The `for domain_info in domain_infos` loop of
`CloudFlareZones.update_zones`, with the running `ok` flag and both
cursors threaded through.  The three `continue` guards, the
`records is None` check, the `refresh_entries and len(records) > 0`
decision and the `try/except` around the write block follow the source
line by line; exceptions raised by `get_records` are not caught there
and therefore abort the whole call. -/
def update_zonesAux (env : Env) (name : String) :
    List DomainsModel → Bool → Nat → Nat → ZonesResult
  | [], ok, g, w => ⟨ZonesOutcome.ret ok, g, w, [], [], []⟩
  | d :: rest, ok, g, w =>
    if name = d.target_domain then
      update_zonesAux env name rest ok g w
    else if strContains name d.name = false then
      update_zonesAux env name rest ok g w
    else if is_domain_excluded name d then
      update_zonesAux env name rest ok g w
    else
      match get_records env.getResp env.max_retries d.zone_id name g with
      | ⟨GetOutcome.raiseAPI msg, gc, gcalls, gsleeps⟩ =>
        ⟨ZonesOutcome.raiseAPI msg, gc, w, gcalls, [], gsleeps⟩
      | ⟨GetOutcome.raiseMaxRetries, gc, gcalls, gsleeps⟩ =>
        ⟨ZonesOutcome.raiseMaxRetries, gc, w, gcalls, [], gsleeps⟩
      | ⟨GetOutcome.ok none, gc, gcalls, gsleeps⟩ =>
        let r := update_zonesAux env name rest false gc w
        ⟨r.outcome, r.g, r.w, gcalls ++ r.calls, r.logs, gsleeps ++ r.sleeps⟩
      | ⟨GetOutcome.ok (some records), gc, gcalls, gsleeps⟩ =>
        let data : RecordData :=
          ⟨env.rc_type, name, d.target_domain, d.ttl, d.proxied, d.comment⟩
        match
          (if env.refresh_entries && decide (0 < records.length) then
            putRecords env d.zone_id data records w
          else
            post_record env w d.zone_id data) with
        | ⟨some msg, w2, wcalls, wlogs⟩ =>
          let r := update_zonesAux env name rest false gc w2
          ⟨r.outcome, r.g, r.w, gcalls ++ wcalls ++ r.calls,
            wlogs ++ LogEvent.error name msg :: r.logs, gsleeps ++ r.sleeps⟩
        | ⟨none, w2, wcalls, wlogs⟩ =>
          let r := update_zonesAux env name rest ok gc w2
          ⟨r.outcome, r.g, r.w, gcalls ++ wcalls ++ r.calls,
            wlogs ++ r.logs, gsleeps ++ r.sleeps⟩

/-- `CloudFlareZones.update_zones(name, domain_infos)` with both
provider cursors starting at `g` and `w`. -/
def update_zones (env : Env) (name : String) (domain_infos : List DomainsModel)
    (g w : Nat) : ZonesResult :=
  update_zonesAux env name domain_infos true g w

/-- Variant of `update_zonesAux` whose only difference is that the
`records is None` branch does not mark the pair failed (it keeps the
running `ok` flag instead of setting it to `False`). -/
def update_zonesNoMarkAux (env : Env) (name : String) :
    List DomainsModel → Bool → Nat → Nat → ZonesResult
  | [], ok, g, w => ⟨ZonesOutcome.ret ok, g, w, [], [], []⟩
  | d :: rest, ok, g, w =>
    if name = d.target_domain then
      update_zonesNoMarkAux env name rest ok g w
    else if strContains name d.name = false then
      update_zonesNoMarkAux env name rest ok g w
    else if is_domain_excluded name d then
      update_zonesNoMarkAux env name rest ok g w
    else
      match get_records env.getResp env.max_retries d.zone_id name g with
      | ⟨GetOutcome.raiseAPI msg, gc, gcalls, gsleeps⟩ =>
        ⟨ZonesOutcome.raiseAPI msg, gc, w, gcalls, [], gsleeps⟩
      | ⟨GetOutcome.raiseMaxRetries, gc, gcalls, gsleeps⟩ =>
        ⟨ZonesOutcome.raiseMaxRetries, gc, w, gcalls, [], gsleeps⟩
      | ⟨GetOutcome.ok none, gc, gcalls, gsleeps⟩ =>
        let r := update_zonesNoMarkAux env name rest ok gc w
        ⟨r.outcome, r.g, r.w, gcalls ++ r.calls, r.logs, gsleeps ++ r.sleeps⟩
      | ⟨GetOutcome.ok (some records), gc, gcalls, gsleeps⟩ =>
        let data : RecordData :=
          ⟨env.rc_type, name, d.target_domain, d.ttl, d.proxied, d.comment⟩
        match
          (if env.refresh_entries && decide (0 < records.length) then
            putRecords env d.zone_id data records w
          else
            post_record env w d.zone_id data) with
        | ⟨some msg, w2, wcalls, wlogs⟩ =>
          let r := update_zonesNoMarkAux env name rest false gc w2
          ⟨r.outcome, r.g, r.w, gcalls ++ wcalls ++ r.calls,
            wlogs ++ LogEvent.error name msg :: r.logs, gsleeps ++ r.sleeps⟩
        | ⟨none, w2, wcalls, wlogs⟩ =>
          let r := update_zonesNoMarkAux env name rest ok gc w2
          ⟨r.outcome, r.g, r.w, gcalls ++ wcalls ++ r.calls,
            wlogs ++ r.logs, gsleeps ++ r.sleeps⟩

/-- True exactly on the `GetOutcome` that corresponds to `get_records`
returning Python `None`. -/
def isNoneResult : GetOutcome → Bool
  | GetOutcome.ok none => true
  | _ => false

/-- True on calls that mutate provider state (POST or PUT). -/
def isProviderWrite : ProviderCall → Bool
  | ProviderCall.get _ _ => false
  | ProviderCall.post _ _ => true
  | ProviderCall.put _ _ _ => true

/-! ### Docker container poller (`DockerContainer`, `DockerPoller`) -/

/-- The label-key test `re.match(r"traefik.*?\.rule", label)` of
`DockerContainer.hosts`: the label starts with `traefik` and contains
`.rule` somewhere after that prefix (labels are assumed newline-free,
so `.` matches every following character). -/
def matchRuleLabel (label : String) : Bool :=
  listStartsWith "traefik".toList label.toList &&
    listHasSub ".rule".toList (label.toList.drop 7)

/-- `re.findall` of the pattern `Host` `(` backtick `([^`]+)` backtick `)`
used by both pollers: scan left to right, at each position try to match
the literal opener, then a non-empty run of non-backtick characters,
then the closing backtick and parenthesis; on success emit the capture
and resume after the match, otherwise advance one character.  The first
argument is fuel; `hostCaptures` supplies the input length, which
suffices because every step consumes at least one character. -/
def hostCapturesAux : Nat → List Char → List String
  | 0, _ => []
  | _, [] => []
  | fuel + 1, c :: rest =>
    match c :: rest with
    | 'H' :: 'o' :: 's' :: 't' :: '(' :: '\x60' :: after =>
      match after.takeWhile (fun ch => ch != '\x60'), after.dropWhile (fun ch => ch != '\x60') with
      | [], _ => hostCapturesAux fuel rest
      | cap, '\x60' :: ')' :: tail => String.mk cap :: hostCapturesAux fuel tail
      | _, _ => hostCapturesAux fuel rest
    | _ => hostCapturesAux fuel rest

/-- All captures of the router-rule host pattern in `s`. -/
def hostCaptures (s : String) : List String :=
  hostCapturesAux s.toList.length s.toList

/-- `DockerContainer.hosts`, over the container's label map in insertion
order.  Faithful to the source: a label whose key matches the
router-rule pattern is *skipped* (`continue`), a remaining label whose
value lacks `Host` is skipped, and the captures of the first remaining
label are *returned* (not unioned). -/
def hosts : List (String × String) → List String
  | [] => []
  | (label, value) :: rest =>
    if matchRuleLabel label then hosts rest
    else if strContains value "Host" = false then hosts rest
    else hostCaptures value

/-- Modelled from the spec: the hostname set §4.3 describes — the union,
over all labels whose key matches `traefik.*\.rule`, of the
`Host(...)` captures of that label's value. -/
def hostsSpec (labels : List (String × String)) : List String :=
  ((labels.filter fun lv => matchRuleLabel lv.1).map fun lv => hostCaptures lv.2).flatten

/-- `DockerPoller.is_enabled`: some label pair matches both the compiled
`filter_label` and `filter_value` regexes (the compiled regex `match`
tests are abstracted as boolean predicates on strings). -/
def is_enabled (filter_label filter_value : String → Bool)
    (labels : List (String × String)) : Bool :=
  labels.any fun lv => filter_label lv.1 && filter_value lv.2

/-- The body of `DockerPoller.run` for one container: `is_enabled` only
selects a debug log line (the source has no `continue` after it), and
every host of the container is submitted to the sync manager
regardless.  Returns `(is_enabled, submitted hostnames)`. -/
def dockerRunStep (filter_label filter_value : String → Bool)
    (labels : List (String × String)) : Bool × List String :=
  (is_enabled filter_label filter_value labels, hosts labels)

/-! ### Traefik poller (`TraefikPoller._is_valid_route`) -/

/-- `TraefikPoller._is_valid_route` over a JSON object modelled as an
association list of string fields.  Faithful to the source: a missing
required key or a non-`enabled` status rejects; the `"Host" not in
route["rule"]` check only emits a debug log and falls through to
`return True`. -/
def is_valid_route (route : List (String × String)) : Bool :=
  if (["status", "name", "rule"].any fun key => (route.lookup key).isNone) then false
  else if route.lookup "status" != some "enabled" then false
  else true

/-- Modelled from the spec: validity as §4.4 states it — the three keys
are present, the status equals `enabled`, and `Host` appears in the
rule. -/
def is_valid_routeSpec (route : List (String × String)) : Bool :=
  match route.lookup "status", route.lookup "name", route.lookup "rule" with
  | some st, some _, some rule => st == "enabled" && strContains rule "Host"
  | _, _, _ => false

/-! ### Sync manager (`sync_mappings`) -/

/-- The dispatch test of `sync_mappings`:
`current_mapping is None or current_mapping > v`. -/
def shouldDispatch (current : Option Nat) (v : Nat) : Bool :=
  match current with
  | none => true
  | some cur => decide (v < cur)

/-- The `for k, v in mappings.items()` loop of `sync_mappings`: when the
dispatch test passes, the reconciler (`CloudFlareZones.point_domain`,
abstracted as the boolean oracle `reconcile`) is invoked, and on success
the synced map records the incoming rank.  Returns the final synced map
and the dispatched hostnames in order. -/
def sync_mappingsAux (reconcile : String → Bool) :
    List (String × Nat) → (String → Option Nat) → ((String → Option Nat) × List String)
  | [], synced => (synced, [])
  | (k, v) :: rest, synced =>
    if shouldDispatch (synced k) v then
      let synced' : String → Option Nat :=
        if reconcile k then fun q => if q = k then some v else synced q else synced
      let r := sync_mappingsAux reconcile rest synced'
      (r.1, k :: r.2)
    else
      sync_mappingsAux reconcile rest synced

/-- `sync_mappings(settings, mappings, domain_infos, logger)` acting on
the process-wide `synced_mappings` map. -/
def sync_mappings (reconcile : String → Bool) (synced : String → Option Nat)
    (mappings : List (String × Nat)) : ((String → Option Nat) × List String) :=
  sync_mappingsAux reconcile mappings synced

/-! ### Helper lemmas -/

/-- The retry loop of `get_records` never produces a returned `None`. -/
lemma getRecordsAux_not_none (oracle : Nat → GetResponse) (zid nm : String) :
    ∀ retry fuel g, isNoneResult (getRecordsAux oracle zid nm retry fuel g).outcome = false := by
  intro retry fuel
  induction fuel generalizing retry with
  | zero => intro g; rfl
  | succ fuel ih =>
    intro g
    simp only [getRecordsAux]
    cases oracle g with
    | success recs => rfl
    | apiError msg =>
      by_cases h : strContains msg "Rate limited"
      · simpa [h] using ih (retry + 1) (g + 1)
      · simp [h, isNoneResult]

/-- The retry loop of `get_records` only issues GET calls. -/
lemma getRecordsAux_calls_reads (oracle : Nat → GetResponse) (zid nm : String) :
    ∀ retry fuel g,
      (getRecordsAux oracle zid nm retry fuel g).calls.filter isProviderWrite = [] := by
  intro retry fuel
  induction fuel generalizing retry with
  | zero => intro g; rfl
  | succ fuel ih =>
    intro g
    simp only [getRecordsAux]
    cases oracle g with
    | success recs => rfl
    | apiError msg =>
      by_cases h : strContains msg "Rate limited"
      · simpa [h, List.filter, isProviderWrite] using ih (retry + 1) (g + 1)
      · simp [h, List.filter, isProviderWrite]

/-- When the first GET attempt succeeds, `get_records` returns its record
list at once. -/
lemma get_records_first_success (oracle : Nat → GetResponse) (mr : Nat) (zid nm : String)
    (g : Nat) (recs : List String) (hmr : 0 < mr) (hg : oracle g = GetResponse.success recs) :
    get_records oracle mr zid nm g =
      ⟨GetOutcome.ok (some recs), g + 1, [ProviderCall.get zid nm], []⟩ := by
  cases mr with
  | zero => exact absurd hmr (by simp)
  | succ mr => simp [get_records, getRecordsAux, hg]

/-- `putRecords` when every write succeeds and `dry_run` is off. -/
lemma putRecords_all_success (env : Env) (zid : String) (data : RecordData)
    (hdry : env.dry_run = false) (hw : ∀ i, env.writeResp i = none) :
    ∀ rids w, putRecords env zid data rids w =
      ⟨none, w + rids.length,
        rids.map fun rid => ProviderCall.put zid rid data,
        rids.map fun rid => LogEvent.updated zid rid data⟩ := by
  intro rids
  induction rids with
  | nil => intro w; simp [putRecords]
  | cons rid rest ih =>
    intro w
    simp only [putRecords, put_record, hdry, hw, Bool.false_eq_true, if_false, ih]
    simp [List.map_cons, Nat.add_comm, Nat.add_assoc, Nat.add_left_comm]

/-- `putRecords` under `dry_run`: no provider calls, no error. -/
lemma putRecords_dry (env : Env) (zid : String) (data : RecordData)
    (hdry : env.dry_run = true) :
    ∀ rids w, putRecords env zid data rids w =
      ⟨none, w, [], rids.map fun rid => LogEvent.dryRunPut zid rid data⟩ := by
  intro rids
  induction rids with
  | nil => intro w; simp [putRecords]
  | cons rid rest ih => intro w; simp [putRecords, put_record, hdry, ih]

/-! ### Claims -/

/-- C7: a hostname equal to a zone's `target_domain` is rejected before
any provider interaction — the `(hostname, zone)` pair contributes no
GET, POST or PUT call, no log line, and leaves the returned success
value unchanged: `update_zones` on `d :: rest` equals `update_zones`
on `rest` alone. -/
theorem C7_target_domain_skipped (env : Env) (name : String) (d : DomainsModel)
    (rest : List DomainsModel) (g w : Nat) (h : name = d.target_domain) :
    update_zones env name (d :: rest) g w = update_zones env name rest g w := by
  simp [update_zones, update_zonesAux, h]

/-- Witness for C7 at a concrete zone and hostname. -/
theorem C7_target_domain_skipped_witness :
    update_zones ⟨fun _ => GetResponse.success [], fun _ => none, 5, false, "CNAME", false⟩
        "target.example.com"
        [⟨"example.com", "Z1", true, 1, "target.example.com", none, []⟩] 0 0 =
      update_zones ⟨fun _ => GetResponse.success [], fun _ => none, 5, false, "CNAME", false⟩
        "target.example.com" [] 0 0 :=
  C7_target_domain_skipped _ _ _ _ 0 0 rfl

/-- C10: `get_records` never returns Python `None` — every run either
returns the provider's record list or raises — and consequently the
`records is None` branch of `update_zones` is unreachable: the loop is
extensionally equal to the variant in which that branch does not mark
the pair failed. -/
theorem C10_get_records_never_none :
    (∀ (oracle : Nat → GetResponse) (mr : Nat) (zid nm : String) (g : Nat),
      isNoneResult (get_records oracle mr zid nm g).outcome = false) ∧
    (∀ (env : Env) (name : String) (zones : List DomainsModel) (ok : Bool) (g w : Nat),
      update_zonesAux env name zones ok g w = update_zonesNoMarkAux env name zones ok g w) := by
  constructor
  · intro oracle mr zid nm g
    exact getRecordsAux_not_none oracle zid nm 0 mr g
  · intro env name zones
    induction zones with
    | nil => intro ok g w; rfl
    | cons d rest ih =>
      intro ok g w
      by_cases h1 : name = d.target_domain
      · simp only [update_zonesAux, update_zonesNoMarkAux, if_pos h1]
        exact ih ok g w
      · by_cases h2 : strContains name d.name = false
        · simp only [update_zonesAux, update_zonesNoMarkAux, if_neg h1, if_pos h2]
          exact ih ok g w
        · by_cases h3 : is_domain_excluded name d = true
          · simp only [update_zonesAux, update_zonesNoMarkAux, if_neg h1, if_neg h2, h3,
              if_true]
            exact ih ok g w
          · simp only [update_zonesAux, update_zonesNoMarkAux, if_neg h1, if_neg h2,
              Bool.not_eq_true] at h3 ⊢
            simp only [h3, Bool.false_eq_true, if_false]
            rcases hg : get_records env.getResp env.max_retries d.zone_id name g with
              ⟨o, gc, gcalls, gsleeps⟩
            cases o with
            | raiseAPI msg => rfl
            | raiseMaxRetries => rfl
            | ok recs =>
              cases recs with
              | none =>
                have hnn := getRecordsAux_not_none env.getResp d.zone_id name 0
                  env.max_retries g
                rw [show getRecordsAux env.getResp d.zone_id name 0 env.max_retries g =
                  get_records env.getResp env.max_retries d.zone_id name g from rfl, hg] at hnn
                simp [isNoneResult] at hnn
              | some records =>
                rcases hwres : (if env.refresh_entries && decide (0 < records.length) then
                    putRecords env d.zone_id
                      ⟨env.rc_type, name, d.target_domain, d.ttl, d.proxied, d.comment⟩ records w
                  else
                    post_record env w d.zone_id
                      ⟨env.rc_type, name, d.target_domain, d.ttl, d.proxied, d.comment⟩) with
                  ⟨e, w2, wcalls, wlogs⟩
                cases e with
                | some msg => simp [hwres, ih]
                | none => simp [hwres, ih]

/-- C2: under `dry_run`, `post_record` and `put_record` perform no
provider write — they only log the intended call — and a whole
`update_zones` run issues zero POST and zero PUT calls to the provider
client for every input. -/
theorem C2_dry_run_no_writes (env : Env) (hdry : env.dry_run = true) :
    (∀ w zid data, post_record env w zid data =
      ⟨none, w, [], [LogEvent.dryRunPost zid data]⟩) ∧
    (∀ w zid rid data, put_record env w zid rid data =
      ⟨none, w, [], [LogEvent.dryRunPut zid rid data]⟩) ∧
    (∀ name zones g w,
      (update_zones env name zones g w).calls.filter isProviderWrite = []) := by
  refine ⟨fun w zid data => by simp [post_record, hdry],
          fun w zid rid data => by simp [put_record, hdry], ?_⟩
  intro name zones g w
  suffices h : ∀ zones ok g w,
      (update_zonesAux env name zones ok g w).calls.filter isProviderWrite = [] by
    exact h zones true g w
  intro zones
  induction zones with
  | nil => intro ok g w; rfl
  | cons d rest ih =>
    intro ok g w
    by_cases h1 : name = d.target_domain
    · simp only [update_zonesAux, if_pos h1]; exact ih ok g w
    · by_cases h2 : strContains name d.name = false
      · simp only [update_zonesAux, if_neg h1, if_pos h2]; exact ih ok g w
      · by_cases h3 : is_domain_excluded name d = true
        · simp only [update_zonesAux, if_neg h1, if_neg h2, h3, if_true]; exact ih ok g w
        · simp only [update_zonesAux, if_neg h1, if_neg h2, Bool.not_eq_true] at h3 ⊢
          simp only [h3, Bool.false_eq_true, if_false]
          have hgcalls := getRecordsAux_calls_reads env.getResp d.zone_id name 0
            env.max_retries g
          rcases hg : get_records env.getResp env.max_retries d.zone_id name g with
            ⟨o, gc, gcalls, gsleeps⟩
          rw [show getRecordsAux env.getResp d.zone_id name 0 env.max_retries g =
            get_records env.getResp env.max_retries d.zone_id name g from rfl, hg] at hgcalls
          simp only at hgcalls
          cases o with
          | raiseAPI msg => simpa using hgcalls
          | raiseMaxRetries => simpa using hgcalls
          | ok recs =>
            cases recs with
            | none => simp [List.filter_append, hgcalls, ih]
            | some records =>
              by_cases hre : (env.refresh_entries && decide (0 < records.length)) = true
              · simp [hre, putRecords_dry env d.zone_id _ hdry, List.filter_append,
                  hgcalls, ih]
              · simp [hre, post_record, hdry, List.filter_append, hgcalls, ih]

/-- Witness for C2 at a concrete dry-run environment. -/
theorem C2_dry_run_no_writes_witness :
    (update_zones ⟨fun _ => GetResponse.success [], fun _ => none, 5, true, "CNAME", false⟩
      "dryrun.example.com"
      [⟨"example.com", "Z1", true, 1, "target.example.com", none, []⟩] 0 0).calls.filter
        isProviderWrite = [] :=
  (C2_dry_run_no_writes _ rfl).2.2 "dryrun.example.com" _ 0 0

/-- C1: for a `(hostname, zone)` pair that passes the hostname filter,
with the provider healthy and `dry_run` off, the reconciler issues
exactly one POST of the payload
`{type: rc_type, name, content: target_domain, ttl, proxied, comment}`
when `refresh_entries` is false or the GET returns no records, and one
PUT per existing record with that payload (and zero POSTs) when
`refresh_entries` is true and the GET returns a non-empty list. -/
theorem C1_create_vs_update (env : Env) (name : String) (d : DomainsModel) (g w : Nat)
    (recs : List String)
    (hdry : env.dry_run = false)
    (hmr : 0 < env.max_retries)
    (ht : ¬name = d.target_domain)
    (hn : strContains name d.name = true)
    (hex : is_domain_excluded name d = false)
    (hget : env.getResp g = GetResponse.success recs)
    (hw : ∀ i, env.writeResp i = none) :
    (env.refresh_entries = false ∨ recs = [] →
      update_zones env name [d] g w =
        ⟨ZonesOutcome.ret true, g + 1, w + 1,
          [ProviderCall.get d.zone_id name,
            ProviderCall.post d.zone_id
              ⟨env.rc_type, name, d.target_domain, d.ttl, d.proxied, d.comment⟩],
          [LogEvent.created d.zone_id
            ⟨env.rc_type, name, d.target_domain, d.ttl, d.proxied, d.comment⟩], []⟩) ∧
    (env.refresh_entries = true → recs ≠ [] →
      update_zones env name [d] g w =
        ⟨ZonesOutcome.ret true, g + 1, w + recs.length,
          ProviderCall.get d.zone_id name ::
            (recs.map fun rid => ProviderCall.put d.zone_id rid
              ⟨env.rc_type, name, d.target_domain, d.ttl, d.proxied, d.comment⟩),
          recs.map fun rid => LogEvent.updated d.zone_id rid
            ⟨env.rc_type, name, d.target_domain, d.ttl, d.proxied, d.comment⟩, []⟩) := by
  have hgr := get_records_first_success env.getResp env.max_retries d.zone_id name g recs
    hmr hget
  constructor
  · intro hcase
    have hcond : (env.refresh_entries && decide (0 < recs.length)) = false := by
      rcases hcase with h | h
      · simp [h]
      · simp [h]
    simp [update_zones, update_zonesAux, ht, hn, hex, hgr, hcond, post_record, hdry, hw]
  · intro hre hne
    have hcond : (env.refresh_entries && decide (0 < recs.length)) = true := by
      simp [hre, List.length_pos.mpr hne]
    simp [update_zones, update_zonesAux, ht, hn, hex, hgr, hcond,
      putRecords_all_success env d.zone_id _ hdry hw recs w]

/-- Witness for C1 at the spec's create-new and update-existing
scenarios (`Z1`, target `target.example.com`, TTL 1, proxied). -/
theorem C1_create_vs_update_witness :
    update_zones ⟨fun _ => GetResponse.success [], fun _ => none, 5, false, "CNAME", false⟩
        "new.example.com" [⟨"example.com", "Z1", true, 1, "target.example.com", none, []⟩] 0 0 =
      ⟨ZonesOutcome.ret true, 1, 1,
        [ProviderCall.get "Z1" "new.example.com",
          ProviderCall.post "Z1"
            ⟨"CNAME", "new.example.com", "target.example.com", 1, true, none⟩],
        [LogEvent.created "Z1"
          ⟨"CNAME", "new.example.com", "target.example.com", 1, true, none⟩], []⟩ ∧
    update_zones ⟨fun _ => GetResponse.success ["R1"], fun _ => none, 5, false, "CNAME", true⟩
        "existing.example.com"
        [⟨"example.com", "Z1", true, 1, "target.example.com", none, []⟩] 0 0 =
      ⟨ZonesOutcome.ret true, 1, 1,
        [ProviderCall.get "Z1" "existing.example.com",
          ProviderCall.put "Z1" "R1"
            ⟨"CNAME", "existing.example.com", "target.example.com", 1, true, none⟩],
        [LogEvent.updated "Z1" "R1"
          ⟨"CNAME", "existing.example.com", "target.example.com", 1, true, none⟩], []⟩ :=
  ⟨(C1_create_vs_update
      ⟨fun _ => GetResponse.success [], fun _ => none, 5, false, "CNAME", false⟩
      "new.example.com" ⟨"example.com", "Z1", true, 1, "target.example.com", none, []⟩ 0 0 []
      rfl (by decide) (by decide) (by decide) rfl rfl (fun _ => rfl)).1 (Or.inl rfl),
    (C1_create_vs_update
      ⟨fun _ => GetResponse.success ["R1"], fun _ => none, 5, false, "CNAME", true⟩
      "existing.example.com" ⟨"example.com", "Z1", true, 1, "target.example.com", none, []⟩ 0 0
      ["R1"] rfl (by decide) (by decide) (by decide) rfl rfl (fun _ => rfl)).2 rfl (by decide)⟩

/-- Behaviour of the retry loop under `k` leading rate-limit errors
followed by a success, for `k` strictly below the remaining fuel. -/
lemma getRecordsAux_rate_limited_then_success (oracle : Nat → GetResponse) (zid nm : String)
    (recs : List String) :
    ∀ k retry fuel g, k < fuel →
      (∀ i, i < k → ∃ msg, oracle (g + i) = GetResponse.apiError msg ∧
        strContains msg "Rate limited" = true) →
      oracle (g + k) = GetResponse.success recs →
      getRecordsAux oracle zid nm retry fuel g =
        ⟨GetOutcome.ok (some recs), g + k + 1,
          List.replicate (k + 1) (ProviderCall.get zid nm),
          (List.range k).map fun i => 2 ^ (retry + i + 1)⟩ := by
  intro k
  induction k with
  | zero =>
    intro retry fuel g hk _ hsucc
    cases fuel with
    | zero => omega
    | succ fuel =>
      rw [Nat.add_zero] at hsucc
      simp [getRecordsAux, hsucc]
  | succ k ih =>
    intro retry fuel g hk hrl hsucc
    cases fuel with
    | zero => omega
    | succ fuel =>
      obtain ⟨msg, h0, hrt⟩ := hrl 0 (Nat.succ_pos k)
      rw [Nat.add_zero] at h0
      have hrec := ih (retry + 1) fuel (g + 1) (by omega)
        (fun i hi => by
          obtain ⟨m, hm, hmrt⟩ := hrl (i + 1) (by omega)
          exact ⟨m, by rwa [show g + 1 + i = g + (i + 1) by omega], hmrt⟩)
        (by rwa [show g + 1 + k = g + (k + 1) by omega])
      have hsl : (2 ^ (retry + 1) :: List.map (fun i => 2 ^ (retry + 1 + i + 1)) (List.range k))
          = List.map (fun i => 2 ^ (retry + i + 1)) (List.range (k + 1)) := by
        rw [List.range_succ_eq_map, List.map_cons, List.map_map]
        congr 1
        refine List.map_congr_left fun a ha => ?_
        simp only [Function.comp_apply]
        congr 1
        omega
      have hcl : (ProviderCall.get zid nm :: List.replicate (k + 1) (ProviderCall.get zid nm))
          = List.replicate (k + 1 + 1) (ProviderCall.get zid nm) :=
        (List.replicate_succ _ _).symm
      simp only [getRecordsAux, h0, hrt, if_true, hrec, hsl, hcl]
      have hcur : g + 1 + k + 1 = g + (k + 1) + 1 := by omega
      rw [hcur]

/-- Behaviour of the retry loop when every attempt within the fuel is
rate limited: the loop exhausts and raises `CloudFlareException`. -/
lemma getRecordsAux_all_rate_limited (oracle : Nat → GetResponse) (zid nm : String) :
    ∀ fuel retry g,
      (∀ i, i < fuel → ∃ msg, oracle (g + i) = GetResponse.apiError msg ∧
        strContains msg "Rate limited" = true) →
      (getRecordsAux oracle zid nm retry fuel g).outcome = GetOutcome.raiseMaxRetries := by
  intro fuel
  induction fuel with
  | zero => intro retry g _; rfl
  | succ fuel ih =>
    intro retry g hrl
    obtain ⟨msg, h0, hrt⟩ := hrl 0 (Nat.succ_pos fuel)
    rw [Nat.add_zero] at h0
    simp only [getRecordsAux, h0, hrt, if_true]
    exact ih (retry + 1) (g + 1) fun i hi => by
      obtain ⟨m, hm, hmrt⟩ := hrl (i + 1) (by omega)
      exact ⟨m, by rwa [show g + 1 + i = g + (i + 1) by omega], hmrt⟩

/-- C3 counterexample: with `max_retries = 5`, a sequence of exactly
five rate-limit errors followed by a success does *not* succeed — the
loop performs only `max_retries` GET attempts, so the success response
is never requested and `get_records` raises
`CloudFlareException("Max retries exceeded")`, which `update_zones`
does not catch (it propagates instead of returning `false`). -/
theorem C3_exact_max_retries_fails :
    (get_records
        (fun i => if i < 5 then GetResponse.apiError "Rate limited" else GetResponse.success [])
        5 "Z1" "rl.example.com" 0).outcome = GetOutcome.raiseMaxRetries ∧
    (get_records
        (fun i => if i < 5 then GetResponse.apiError "Rate limited" else GetResponse.success [])
        5 "Z1" "rl.example.com" 0).cursor = 5 ∧
    (update_zones
        ⟨fun i => if i < 5 then GetResponse.apiError "Rate limited" else GetResponse.success [],
          fun _ => none, 5, false, "CNAME", false⟩
        "rl.example.com" [⟨"example.com", "Z1", true, 1, "target.example.com", none, []⟩]
        0 0).outcome = ZonesOutcome.raiseMaxRetries := by
  refine ⟨by decide, by decide, by decide⟩

/-- C3 amended: on a rate-limit error `get_records` requests a sleep of
`2^(retry+1)` seconds (the coroutine is built without `await`) and
retries, making at most `max_retries` GET attempts in total; up to
`max_retries - 1` rate-limit errors followed by a success still
succeed, returning the provider's record list, while `max_retries`
rate-limit errors exhaust the attempts and raise `CloudFlareException`,
which propagates out of `update_zones` (the pair fails with an
exception, not a `false` return). -/
theorem C3_rate_limit_retries :
    (∀ (oracle : Nat → GetResponse) (mr k : Nat) (zid nm : String) (g : Nat)
        (recs : List String), k < mr →
      (∀ i, i < k → ∃ msg, oracle (g + i) = GetResponse.apiError msg ∧
        strContains msg "Rate limited" = true) →
      oracle (g + k) = GetResponse.success recs →
      get_records oracle mr zid nm g =
        ⟨GetOutcome.ok (some recs), g + k + 1,
          List.replicate (k + 1) (ProviderCall.get zid nm),
          (List.range k).map fun i => 2 ^ (i + 1)⟩) ∧
    (∀ (oracle : Nat → GetResponse) (mr : Nat) (zid nm : String) (g : Nat),
      (∀ i, i < mr → ∃ msg, oracle (g + i) = GetResponse.apiError msg ∧
        strContains msg "Rate limited" = true) →
      (get_records oracle mr zid nm g).outcome = GetOutcome.raiseMaxRetries) ∧
    (∀ (env : Env) (name : String) (d : DomainsModel) (rest : List DomainsModel) (g w : Nat),
      ¬name = d.target_domain → strContains name d.name = true →
      is_domain_excluded name d = false →
      (get_records env.getResp env.max_retries d.zone_id name g).outcome =
        GetOutcome.raiseMaxRetries →
      (update_zones env name (d :: rest) g w).outcome = ZonesOutcome.raiseMaxRetries) := by
  refine ⟨?_, ?_, ?_⟩
  · intro oracle mr k zid nm g recs hk hrl hsucc
    simpa using getRecordsAux_rate_limited_then_success oracle zid nm recs k 0 mr g hk hrl hsucc
  · intro oracle mr zid nm g hrl
    exact getRecordsAux_all_rate_limited oracle zid nm mr 0 g hrl
  · intro env name d rest g w ht hn hex ho
    simp only [update_zones, update_zonesAux, ht, hn, hex]
    rcases hg : get_records env.getResp env.max_retries d.zone_id name g with
      ⟨o, gc, gcalls, gsleeps⟩
    rw [hg] at ho
    simp only at ho
    subst ho
    simp [ht, hn, hex, hg]

/-- Witness for C3 amended: the spec's rate-limit scenario (two
rate-limit errors, then success) succeeds with sleeps 2 and 4; five
rate-limit errors exhaust `max_retries = 5` and the exception
propagates out of `update_zones`. -/
theorem C3_rate_limit_retries_witness :
    get_records
        (fun i => if i < 2 then GetResponse.apiError "Rate limited"
          else GetResponse.success ["R1"]) 5 "Z1" "rl.example.com" 0 =
      ⟨GetOutcome.ok (some ["R1"]), 3,
        List.replicate 3 (ProviderCall.get "Z1" "rl.example.com"), [2, 4]⟩ ∧
    (get_records
        (fun _ => GetResponse.apiError "Rate limited") 5 "Z1" "rl.example.com" 0).outcome =
      GetOutcome.raiseMaxRetries ∧
    (update_zones
        ⟨fun _ => GetResponse.apiError "Rate limited", fun _ => none, 5, false, "CNAME", false⟩
        "rl.example.com" [⟨"example.com", "Z1", true, 1, "target.example.com", none, []⟩]
        0 0).outcome = ZonesOutcome.raiseMaxRetries := by
  refine ⟨?_, ?_, ?_⟩
  · have := C3_rate_limit_retries.1
      (fun i => if i < 2 then GetResponse.apiError "Rate limited"
        else GetResponse.success ["R1"]) 5 2 "Z1" "rl.example.com" 0 ["R1"] (by omega)
      (fun i hi => ⟨"Rate limited", by interval_cases i <;> exact ⟨rfl, by decide⟩⟩)
      rfl
    simpa using this
  · exact C3_rate_limit_retries.2.1 _ 5 "Z1" "rl.example.com" 0
      (fun i _ => ⟨"Rate limited", rfl, by decide⟩)
  · exact C3_rate_limit_retries.2.2 _ "rl.example.com"
      ⟨"example.com", "Z1", true, 1, "target.example.com", none, []⟩ [] 0 0
      (by decide) (by decide) rfl
      (C3_rate_limit_retries.2.1 _ 5 "Z1" "rl.example.com" 0
        (fun i _ => ⟨"Rate limited", rfl, by decide⟩))

/-- True on the log line `update_zones` emits when a write raises. -/
def isErrorLog : LogEvent → Bool
  | LogEvent.error _ _ => true
  | _ => false

/-- No line of `ls` is an error log. -/
def noErrorLogs (ls : List LogEvent) : Bool :=
  ls.all fun l => !isErrorLog l

lemma noErrorLogs_nil : noErrorLogs [] = true := rfl

lemma noErrorLogs_cons (x : LogEvent) (l : List LogEvent) :
    noErrorLogs (x :: l) = (!isErrorLog x && noErrorLogs l) := by
  simp [noErrorLogs]

lemma noErrorLogs_append (l1 l2 : List LogEvent) :
    noErrorLogs (l1 ++ l2) = (noErrorLogs l1 && noErrorLogs l2) := by
  simp [noErrorLogs, List.all_append]

/-- `post_record` never emits an error log line itself. -/
lemma post_record_no_error (env : Env) (w : Nat) (zid : String) (data : RecordData) :
    noErrorLogs (post_record env w zid data).logs = true := by
  by_cases hdry : env.dry_run = true
  · simp [post_record, hdry, noErrorLogs_cons, noErrorLogs_nil, isErrorLog]
  · rcases hw : env.writeResp w with _ | msg <;>
      simp [post_record, hdry, hw, noErrorLogs_cons, noErrorLogs_nil, isErrorLog]

/-- The PUT loop never emits an error log line itself. -/
lemma putRecords_no_error (env : Env) (zid : String) (data : RecordData) :
    ∀ rids w, noErrorLogs (putRecords env zid data rids w).logs = true := by
  intro rids
  induction rids with
  | nil => intro w; rfl
  | cons rid rest ih =>
    intro w
    by_cases hdry : env.dry_run = true
    · simp only [putRecords, put_record, hdry, if_true, List.cons_append, List.nil_append,
        noErrorLogs_cons, isErrorLog, Bool.not_false, Bool.true_and]
      exact ih w
    · rcases hw : env.writeResp w with _ | msg
      · simp only [putRecords, put_record, hdry, Bool.false_eq_true, if_false, hw,
          List.cons_append, List.nil_append, noErrorLogs_cons, isErrorLog, Bool.not_false,
          Bool.true_and]
        exact ih (w + 1)
      · simp [putRecords, put_record, hdry, hw, noErrorLogs_nil]

/-- When every GET succeeds, `update_zones` terminates with a returned
boolean that is `ok` conjoined with "no error was logged". -/
lemma update_zonesAux_ret_no_error (env : Env) (name : String)
    (hg : ∀ i, ∃ recs, env.getResp i = GetResponse.success recs)
    (hmr : 0 < env.max_retries) :
    ∀ (zones : List DomainsModel) (ok : Bool) (g w : Nat),
      (update_zonesAux env name zones ok g w).outcome =
        ZonesOutcome.ret (ok && noErrorLogs (update_zonesAux env name zones ok g w).logs) := by
  intro zones
  induction zones with
  | nil => intro ok g w; simp [update_zonesAux, noErrorLogs_nil]
  | cons d rest ih =>
    intro ok g w
    by_cases h1 : name = d.target_domain
    · simp only [update_zonesAux, if_pos h1]; exact ih ok g w
    · by_cases h2 : strContains name d.name = false
      · simp only [update_zonesAux, if_neg h1, if_pos h2]; exact ih ok g w
      · by_cases h3 : is_domain_excluded name d = true
        · simp only [update_zonesAux, if_neg h1, if_neg h2, h3, if_true]; exact ih ok g w
        · simp only [update_zonesAux, if_neg h1, if_neg h2, Bool.not_eq_true] at h3 ⊢
          simp only [h3, Bool.false_eq_true, if_false]
          obtain ⟨recs, hrecs⟩ := hg g
          have hgr := get_records_first_success env.getResp env.max_retries d.zone_id name g
            recs hmr hrecs
          by_cases hre : (env.refresh_entries && decide (0 < recs.length)) = true
          · rcases hpr : putRecords env d.zone_id
                ⟨env.rc_type, name, d.target_domain, d.ttl, d.proxied, d.comment⟩ recs w with
              ⟨e, w2, wcalls, wlogs⟩
            have hwl := putRecords_no_error env d.zone_id
              ⟨env.rc_type, name, d.target_domain, d.ttl, d.proxied, d.comment⟩ recs w
            rw [hpr] at hwl
            simp only at hwl
            cases e with
            | some msg =>
              simp only [hgr, hre, if_true, hpr]
              simp [noErrorLogs_append, noErrorLogs_cons, hwl, isErrorLog, ih]
            | none =>
              simp only [hgr, hre, if_true, hpr]
              simp [noErrorLogs_append, hwl, ih]
          · rcases hpo : post_record env w d.zone_id
                ⟨env.rc_type, name, d.target_domain, d.ttl, d.proxied, d.comment⟩ with
              ⟨e, w2, wcalls, wlogs⟩
            have hwl := post_record_no_error env w d.zone_id
              ⟨env.rc_type, name, d.target_domain, d.ttl, d.proxied, d.comment⟩
            rw [hpo] at hwl
            simp only at hwl
            cases e with
            | some msg =>
              simp only [hgr, hre, Bool.false_eq_true, if_false, hpo]
              simp [noErrorLogs_append, noErrorLogs_cons, hwl, isErrorLog, ih]
            | none =>
              simp only [hgr, hre, Bool.false_eq_true, if_false, hpo]
              simp [noErrorLogs_append, hwl, ih]

/-- C8 counterexample: a non-rate-limit provider error raised by the
GET is *not* contained to the current pair — `get_records` re-raises
it and `update_zones` has no handler around the read, so the whole
call aborts with the exception: the second zone is never queried and
no boolean is returned. -/
theorem C8_get_error_aborts :
    update_zones
        ⟨fun _ => GetResponse.apiError "boom", fun _ => none, 5, false, "CNAME", false⟩
        "a.example.com"
        [⟨"example.com", "Z1", true, 1, "target.example.com", none, []⟩,
          ⟨"example.com", "Z2", true, 1, "target.example.com", none, []⟩] 0 0 =
      ⟨ZonesOutcome.raiseAPI "boom", 1, 0,
        [ProviderCall.get "Z1" "a.example.com"], [], []⟩ := by
  decide

/-- C8 amended: a provider error raised during the *write* (POST/PUT)
is logged, fails only the current pair and processing continues with
the remaining zones; and whenever every GET succeeds, `update_zones`
returns a boolean that is `true` exactly when no pair logged a write
error — i.e. `true` iff every pair succeeded.  (A non-rate-limit
error during the GET instead propagates out of `update_zones`,
aborting the remaining zones — see the counterexample.) -/
theorem C8_write_error_isolated :
    (∀ (env : Env) (name : String) (d1 d2 : DomainsModel) (g w : Nat) (msg : String),
      env.dry_run = false → 0 < env.max_retries →
      env.getResp g = GetResponse.success [] →
      env.getResp (g + 1) = GetResponse.success [] →
      env.writeResp w = some msg → env.writeResp (w + 1) = none →
      ¬name = d1.target_domain → strContains name d1.name = true →
      is_domain_excluded name d1 = false →
      ¬name = d2.target_domain → strContains name d2.name = true →
      is_domain_excluded name d2 = false →
      update_zones env name [d1, d2] g w =
        ⟨ZonesOutcome.ret false, g + 2, w + 2,
          [ProviderCall.get d1.zone_id name,
            ProviderCall.post d1.zone_id
              ⟨env.rc_type, name, d1.target_domain, d1.ttl, d1.proxied, d1.comment⟩,
            ProviderCall.get d2.zone_id name,
            ProviderCall.post d2.zone_id
              ⟨env.rc_type, name, d2.target_domain, d2.ttl, d2.proxied, d2.comment⟩],
          [LogEvent.error name msg,
            LogEvent.created d2.zone_id
              ⟨env.rc_type, name, d2.target_domain, d2.ttl, d2.proxied, d2.comment⟩], []⟩) ∧
    (∀ (env : Env) (name : String),
      (∀ i, ∃ recs, env.getResp i = GetResponse.success recs) →
      0 < env.max_retries →
      ∀ zones g w, (update_zones env name zones g w).outcome =
        ZonesOutcome.ret (noErrorLogs (update_zones env name zones g w).logs)) := by
  constructor
  · intro env name d1 d2 g w msg hdry hmr hg1 hg2 hw0 hw1 ht1 hn1 hex1 ht2 hn2 hex2
    have hgr1 := get_records_first_success env.getResp env.max_retries d1.zone_id name g []
      hmr hg1
    have hgr2 := get_records_first_success env.getResp env.max_retries d2.zone_id name (g + 1)
      [] hmr hg2
    simp [update_zones, update_zonesAux, ht1, hn1, hex1, ht2, hn2, hex2, hgr1, hgr2,
      post_record, hdry, hw0, hw1]
  · intro env name hg hmr zones g w
    simpa [update_zones] using update_zonesAux_ret_no_error env name hg hmr zones true g w

/-- Witness for C8 amended at a concrete run: the first zone's POST
fails, the error is logged, the second zone is still processed, and
the call returns `false`; with all writes succeeding the same zones
return `true`, and with the failing write they return `false`. -/
theorem C8_write_error_isolated_witness :
    update_zones
        ⟨fun _ => GetResponse.success [], fun i => if i = 0 then some "boom" else none,
          5, false, "CNAME", false⟩
        "a.example.com"
        [⟨"example.com", "Z1", true, 1, "target.example.com", none, []⟩,
          ⟨"example.com", "Z2", true, 1, "target.example.com", none, []⟩] 0 0 =
      ⟨ZonesOutcome.ret false, 2, 2,
        [ProviderCall.get "Z1" "a.example.com",
          ProviderCall.post "Z1"
            ⟨"CNAME", "a.example.com", "target.example.com", 1, true, none⟩,
          ProviderCall.get "Z2" "a.example.com",
          ProviderCall.post "Z2"
            ⟨"CNAME", "a.example.com", "target.example.com", 1, true, none⟩],
        [LogEvent.error "a.example.com" "boom",
          LogEvent.created "Z2"
            ⟨"CNAME", "a.example.com", "target.example.com", 1, true, none⟩], []⟩ ∧
    (update_zones
        ⟨fun _ => GetResponse.success [], fun _ => none, 5, false, "CNAME", false⟩
        "a.example.com"
        [⟨"example.com", "Z1", true, 1, "target.example.com", none, []⟩,
          ⟨"example.com", "Z2", true, 1, "target.example.com", none, []⟩] 0 0).outcome =
      ZonesOutcome.ret true ∧
    (update_zones
        ⟨fun _ => GetResponse.success [], fun i => if i = 0 then some "boom" else none,
          5, false, "CNAME", false⟩
        "a.example.com"
        [⟨"example.com", "Z1", true, 1, "target.example.com", none, []⟩,
          ⟨"example.com", "Z2", true, 1, "target.example.com", none, []⟩] 0 0).outcome =
      ZonesOutcome.ret false :=
  ⟨C8_write_error_isolated.1
      ⟨fun _ => GetResponse.success [], fun i => if i = 0 then some "boom" else none,
        5, false, "CNAME", false⟩
      "a.example.com" ⟨"example.com", "Z1", true, 1, "target.example.com", none, []⟩
      ⟨"example.com", "Z2", true, 1, "target.example.com", none, []⟩ 0 0 "boom"
      rfl (by decide) rfl rfl rfl rfl (by decide) (by decide) rfl (by decide) (by decide) rfl,
    (C8_write_error_isolated.2
      ⟨fun _ => GetResponse.success [], fun _ => none, 5, false, "CNAME", false⟩
      "a.example.com" (fun _ => ⟨[], rfl⟩) (by decide) _ 0 0).trans (by decide),
    (C8_write_error_isolated.2
      ⟨fun _ => GetResponse.success [], fun i => if i = 0 then some "boom" else none,
        5, false, "CNAME", false⟩
      "a.example.com" (fun _ => ⟨[], rfl⟩) (by decide) _ 0 0).trans (by decide)⟩

/-- Ranks recorded in the synced map only ever decrease during a
`sync_mappings` pass. -/
lemma sync_mappingsAux_mono (rec : String → Bool) :
    ∀ (ms : List (String × Nat)) (synced : String → Option Nat) (k : String) (r : Nat),
      synced k = some r →
      ∃ r', (sync_mappingsAux rec ms synced).1 k = some r' ∧ r' ≤ r := by
  intro ms
  induction ms with
  | nil => intro synced k r h; exact ⟨r, h, le_refl r⟩
  | cons kv rest ih =>
    obtain ⟨k0, v0⟩ := kv
    intro synced k r h
    by_cases hd : shouldDispatch (synced k0) v0 = true
    · by_cases hrc : rec k0 = true
      · by_cases hkk : k = k0
        · subst hkk
          have hv : v0 < r := by
            rw [h] at hd
            simpa [shouldDispatch] using hd
          have hupd : (fun q => if q = k then some v0 else synced q) k = some v0 := by simp
          obtain ⟨r', hr', hle⟩ :=
            ih (fun q => if q = k then some v0 else synced q) k v0 hupd
          refine ⟨r', ?_, hle.trans hv.le⟩
          simpa [sync_mappingsAux, hd, hrc] using hr'
        · have hupd : (fun q => if q = k0 then some v0 else synced q) k = some r := by
            simp [hkk, h]
          obtain ⟨r', hr', hle⟩ :=
            ih (fun q => if q = k0 then some v0 else synced q) k r hupd
          exact ⟨r', by simpa [sync_mappingsAux, hd, hrc] using hr', hle⟩
      · obtain ⟨r', hr', hle⟩ := ih synced k r h
        exact ⟨r', by simpa [sync_mappingsAux, hd, hrc] using hr', hle⟩
    · obtain ⟨r', hr', hle⟩ := ih synced k r h
      exact ⟨r', by simpa [sync_mappingsAux, hd] using hr', hle⟩

/-- After a pass with an always-successful reconciler, every hostname of
the batch is recorded at a rank no larger than its incoming rank. -/
lemma sync_mappingsAux_bounds (rec : String → Bool) (hrec : ∀ s, rec s = true) :
    ∀ (ms : List (String × Nat)) (synced : String → Option Nat) (k : String) (v : Nat),
      (k, v) ∈ ms →
      ∃ w', (sync_mappingsAux rec ms synced).1 k = some w' ∧ w' ≤ v := by
  intro ms
  induction ms with
  | nil => intro synced k v h; simp at h
  | cons kv rest ih =>
    obtain ⟨k0, v0⟩ := kv
    intro synced k v hmem
    rcases List.mem_cons.mp hmem with heq | htail
    · cases heq
      by_cases hd : shouldDispatch (synced k0) v0 = true
      · have hupd : (fun q => if q = k0 then some v0 else synced q) k0 = some v0 := by simp
        obtain ⟨r', hr', hle⟩ :=
          sync_mappingsAux_mono rec rest (fun q => if q = k0 then some v0 else synced q)
            k0 v0 hupd
        exact ⟨r', by simpa [sync_mappingsAux, hd, hrec k0] using hr', hle⟩
      · rcases hcur : synced k0 with _ | cur
        · rw [hcur] at hd; simp [shouldDispatch] at hd
        · have hcv : cur ≤ v0 := by
            rw [hcur] at hd
            simp [shouldDispatch] at hd
            omega
          obtain ⟨r', hr', hle⟩ := sync_mappingsAux_mono rec rest synced k0 cur hcur
          exact ⟨r', by simpa [sync_mappingsAux, hd] using hr', hle.trans hcv⟩
    · by_cases hd : shouldDispatch (synced k0) v0 = true
      · obtain ⟨r', hr', hle⟩ :=
          ih (if rec k0 = true then fun q => if q = k0 then some v0 else synced q else synced)
            k v htail
        exact ⟨r', by simpa [sync_mappingsAux, hd, hrec k0] using hr', hle⟩
      · obtain ⟨r', hr', hle⟩ := ih synced k v htail
        exact ⟨r', by simpa [sync_mappingsAux, hd] using hr', hle⟩

/-- A pass over a batch whose hostnames are all already recorded at
ranks bounded by the incoming ranks dispatches nothing and leaves the
map untouched. -/
lemma sync_mappingsAux_no_redispatch (rec : String → Bool) :
    ∀ (ms : List (String × Nat)) (synced : String → Option Nat),
      (∀ (k : String) (v : Nat), (k, v) ∈ ms → ∃ w', synced k = some w' ∧ w' ≤ v) →
      sync_mappingsAux rec ms synced = (synced, []) := by
  intro ms
  induction ms with
  | nil => intro synced _; rfl
  | cons kv rest ih =>
    obtain ⟨k0, v0⟩ := kv
    intro synced h
    obtain ⟨w', hw', hle⟩ := h k0 v0 (List.mem_cons_self _ _)
    have hd : shouldDispatch (synced k0) v0 = false := by
      rw [hw']
      simp [shouldDispatch]
      omega
    simp only [sync_mappingsAux, hd, Bool.false_eq_true, if_false]
    exact ih synced fun k v hm => h k v (List.mem_cons_of_mem _ hm)

/-- C6: `sync_mappings` dispatches a hostname exactly when the synced
map has no entry for it or the incoming source-rank is strictly lower
than the recorded rank, and on reconciler success records the incoming
rank; recorded ranks never increase; and delivering the same batch
twice (with an always-successful reconciler) dispatches nothing on the
second delivery. -/
theorem C6_sync_rank_rule :
    (∀ (rec : String → Bool) (synced : String → Option Nat) (k : String) (v : Nat),
      ((sync_mappings rec synced [(k, v)]).2 = [k] ↔
        synced k = none ∨ ∃ r, synced k = some r ∧ v < r) ∧
      (rec k = true → (synced k = none ∨ ∃ r, synced k = some r ∧ v < r) →
        (sync_mappings rec synced [(k, v)]).1 k = some v)) ∧
    (∀ (rec : String → Bool) (synced : String → Option Nat) (ms : List (String × Nat))
        (k : String) (r : Nat), synced k = some r →
      ∃ r', (sync_mappings rec synced ms).1 k = some r' ∧ r' ≤ r) ∧
    (∀ (rec : String → Bool) (synced : String → Option Nat) (ms : List (String × Nat)),
      (∀ s, rec s = true) →
      (sync_mappings rec (sync_mappings rec synced ms).1 ms).2 = []) := by
  refine ⟨?_, ?_, ?_⟩
  · intro rec synced k v
    have hiff : shouldDispatch (synced k) v = true ↔
        synced k = none ∨ ∃ r, synced k = some r ∧ v < r := by
      rcases hcur : synced k with _ | cur
      · simp [shouldDispatch]
      · simp [shouldDispatch]
    constructor
    · constructor
      · intro h12
        by_cases hd : shouldDispatch (synced k) v = true
        · exact hiff.mp hd
        · exfalso
          simp [sync_mappings, sync_mappingsAux, hd] at h12
      · intro hcond
        have hd := hiff.mpr hcond
        simp [sync_mappings, sync_mappingsAux, hd]
    · intro hrc hcond
      have hd := hiff.mpr hcond
      simp [sync_mappings, sync_mappingsAux, hd, hrc]
  · intro rec synced ms k r h
    exact sync_mappingsAux_mono rec ms synced k r h
  · intro rec synced ms hrec
    have h := sync_mappingsAux_no_redispatch rec ms (sync_mappingsAux rec ms synced).1
      fun k v hm => sync_mappingsAux_bounds rec hrec ms synced k v hm
    simp [sync_mappings, h]

/-- Witness for C6: a fresh hostname is dispatched and recorded; a
recorded hostname only moves down in rank; the second delivery of the
same batch dispatches nothing. -/
theorem C6_sync_rank_rule_witness :
    (sync_mappings (fun _ => true) (fun _ => none) [("a", 2)]).2 = ["a"] ∧
    (sync_mappings (fun _ => true) (fun _ => none) [("a", 2)]).1 "a" = some 2 ∧
    (∃ r', (sync_mappings (fun _ => true)
        (fun q => if q = "a" then some 3 else none) [("a", 1)]).1 "a" = some r' ∧ r' ≤ 3) ∧
    (sync_mappings (fun _ => true)
        (sync_mappings (fun _ => true) (fun _ => none) [("a", 2), ("b", 1)]).1
        [("a", 2), ("b", 1)]).2 = [] :=
  ⟨(C6_sync_rank_rule.1 (fun _ => true) (fun _ => none) "a" 2).1.mpr (Or.inl rfl),
    (C6_sync_rank_rule.1 (fun _ => true) (fun _ => none) "a" 2).2 rfl (Or.inl rfl),
    C6_sync_rank_rule.2.1 (fun _ => true) (fun q => if q = "a" then some 3 else none)
      [("a", 1)] "a" 3 rfl,
    C6_sync_rank_rule.2.2 (fun _ => true) (fun _ => none) [("a", 2), ("b", 1)]
      (fun _ => rfl)⟩

/-- C4: the container poller does *not* emit the union of `Host`
captures over router-rule labels.  On a container whose single label is
a router-rule label carrying ``Host(`a.example.com`)``, the source's
`hosts` property returns nothing — the inverted `re.match` test skips
precisely the labels the spec designates — while the spec's union
(`hostsSpec`) yields the hostname. -/
theorem C4_hosts_skips_rule_labels :
    hosts [("traefik.http.routers.web.rule", "Host(`a.example.com`)")] = [] ∧
    hostsSpec [("traefik.http.routers.web.rule", "Host(`a.example.com`)")] =
      ["a.example.com"] ∧
    hosts [("foo", "Host(`x.example.com`)")] = ["x.example.com"] ∧
    hostsSpec [("foo", "Host(`x.example.com`)")] = [] := by
  refine ⟨by decide, by decide, by decide, by decide⟩

/-- C5: a container with no label pair matching the filters is *not*
skipped by `DockerPoller.run` — `is_enabled` is false, the source only
logs "Skipping container" without a `continue`, and the container's
hostnames are still submitted to the sync manager. -/
theorem C5_disabled_container_still_submitted :
    is_enabled (fun s => s == "traefik.constraint") (fun s => s == "value")
      [("foo", "Host(`x.example.com`)")] = false ∧
    (dockerRunStep (fun s => s == "traefik.constraint") (fun s => s == "value")
      [("foo", "Host(`x.example.com`)")]).2 = ["x.example.com"] := by
  refine ⟨by decide, by decide⟩

/-- C9: `_is_valid_route` accepts a route whose rule lacks `Host` — the
missing-`Host` branch only logs and falls through to `return True` —
whereas the spec's validity predicate rejects it.  The other three
conditions (presence of the keys and `status == "enabled"`) are
checked as specified. -/
theorem C9_route_without_host_accepted :
    is_valid_route [("status", "enabled"), ("name", "r"), ("rule", "Path(/x)")] = true ∧
    is_valid_routeSpec [("status", "enabled"), ("name", "r"), ("rule", "Path(/x)")] = false ∧
    is_valid_route [("status", "disabled"), ("name", "r"), ("rule", "Path(/x)")] = false ∧
    is_valid_route [("name", "r"), ("rule", "Path(/x)")] = false := by
  refine ⟨by decide, by decide, by decide, by decide⟩

end DnsSynchub
